import Mathlib

/-!
Shallow embedding of the figma-mcp-bridge leader server.

Source files embedded:
- `src/server/src/schema.ts` — the Validator: zod schemas for the three
  registered tools, the per-tool argument reshaping table `rpcToArgs`, and
  `validateRpc`.
- `src/server/src/leader.ts` — the FrontDoor: the `/rpc` request handler
  `handleRPC`, the connection-upgrade router, and `start()`.

`bridge.ts` is not among the sources; the Bridge is treated as an opaque
oracle (an arbitrary state-passing function producing an outcome), with a
well-formedness predicate modelled from the spec where a claim needs the
spec's RPCResponse invariant.
-/

/-- JS runtime values as far as the RPC layer inspects them: undefined, null,
booleans, numbers, strings, arrays and plain objects. Numbers carry an
integer payload; no claim inspects numeric values beyond their kind. -/
inductive Value where
  | undef
  | null
  | bool (b : Bool)
  | num (n : Int)
  | str (s : String)
  | arr (elems : List Value)
  | obj (fields : List (String × Value))

/-- A `Record<string, unknown>` as a key/value list; lookup takes the first
match (a real JS object has unique keys). -/
abbrev Params := List (String × Value)

/-- Whether a value is the JS `undefined`. -/
def Value.isUndef : Value → Bool
  | .undef => true
  | _ => false

/-- zod's name for a parsed value's type, as used in its invalid-type
messages (`getParsedType`). -/
def typeName : Value → String
  | .undef => "undefined"
  | .null => "null"
  | .bool _ => "boolean"
  | .num _ => "number"
  | .str _ => "string"
  | .arr _ => "array"
  | .obj _ => "object"

/-- zod's invalid-type issue message: `Required` when the input is
undefined, otherwise `Expected <kind>, received <kind>`. -/
def typeErrorMsg (expected : String) (v : Value) : String :=
  match v with
  | .undef => "Required"
  | v => "Expected " ++ expected ++ ", received " ++ typeName v

/-- The regex `^\d+:\d+$` of `figmaNodeId` in schema.ts: one or more ASCII
digits, a colon, one or more ASCII digits (JS `\d` without the unicode flag
is exactly 0-9). Greedy matching needs no backtracking here because a digit
is never a colon. -/
def matchNodeId (s : String) : Bool :=
  match s.toList.dropWhile Char.isDigit with
  | ':' :: rest =>
      !(s.toList.takeWhile Char.isDigit).isEmpty && !rest.isEmpty &&
        rest.all Char.isDigit
  | _ => false

/-- The custom message attached to the `figmaNodeId` regex check. -/
def colonFormatMsg : String := "Node ID must use colon format, e.g. '4029:12345'"

/-- `figmaNodeId.safeParse` reduced to its first issue message: a string is
checked against the regex (custom message on failure); a non-string input
yields zod's invalid-type message. -/
def figmaNodeId : Value → Option String
  | .str s => if matchNodeId s then none else some colonFormatMsg
  | v => some (typeErrorMsg "string" v)

/-- `z.string()` as first-issue-message. -/
def parseString : Value → Option String
  | .str _ => none
  | v => some (typeErrorMsg "string" v)

/-- `z.number()` as first-issue-message. -/
def parseNumber : Value → Option String
  | .num _ => none
  | v => some (typeErrorMsg "number" v)

/-- `.optional()`: undefined (which is also a missing object key) passes;
anything else goes to the wrapped schema. -/
def parseOptional (p : Value → Option String) : Value → Option String
  | .undef => none
  | v => p v

/-- First issue over a list of array elements, in index order — zod reports
`error.issues[0]`, the earliest failing element's message. -/
def firstIssue (p : Value → Option String) : List Value → Option String
  | [] => none
  | v :: vs =>
      match p v with
      | some m => some m
      | none => firstIssue p vs

/-- `z.array(p)` as first-issue-message. -/
def parseArray (p : Value → Option String) : Value → Option String
  | .arr xs => firstIssue p xs
  | v => some (typeErrorMsg "array" v)

/-- Object field access: a missing key reads as undefined, like a JS
property access on a plain object. -/
def getField (fields : List (String × Value)) (k : String) : Value :=
  match fields.lookup k with
  | some v => v
  | none => Value.undef

/-- `toolInputSchemas.get_node.safeParse` as first-issue-message: the input
must be an object whose `nodeId` field satisfies `figmaNodeId` (the field is
required: an absent or undefined `nodeId` yields the Required message). -/
def get_node_schema : Value → Option String
  | .obj fields => figmaNodeId (getField fields "nodeId")
  | v => some (typeErrorMsg "object" v)

/-- `toolInputSchemas.get_design_context.safeParse`: `depth` is an optional
number. -/
def get_design_context_schema : Value → Option String
  | .obj fields => parseOptional parseNumber (getField fields "depth")
  | v => some (typeErrorMsg "object" v)

/-- `toolInputSchemas.get_screenshot.safeParse`: `nodeIds` is an optional
array of `figmaNodeId`, `format` an optional string, `scale` an optional
number; zod reports issues in shape-definition order, so the `nodeIds` issue
wins over `format`, which wins over `scale`. Unknown keys are stripped, not
rejected. -/
def get_screenshot_schema : Value → Option String
  | .obj fields =>
      match parseOptional (parseArray figmaNodeId) (getField fields "nodeIds") with
      | some m => some m
      | none =>
          match parseOptional parseString (getField fields "format") with
          | some m => some m
          | none => parseOptional parseNumber (getField fields "scale")
  | v => some (typeErrorMsg "object" v)

/-- The optional-chained `nodeIds?.[0]` of the `get_node` reshaper: undefined
when the list is absent or empty. -/
def firstNodeId : Option (List String) → Value
  | none => .undef
  | some [] => .undef
  | some (x :: _) => .str x

/-- `rpcToArgs.get_node`: `(nodeIds) => ({ nodeId: nodeIds?.[0] })`. -/
def rpcToArgs_get_node (nodeIds : Option (List String)) (_params : Option Params) :
    Value :=
  .obj [("nodeId", firstNodeId nodeIds)]

/-- `rpcToArgs.get_design_context`: `(_nodeIds, params) => ({ ...params })`
(spreading undefined gives the empty object). -/
def rpcToArgs_get_design_context (_nodeIds : Option (List String))
    (params : Option Params) : Value :=
  .obj (params.getD [])

/-- The wire `nodeIds` array as a JS value: undefined when absent. -/
def nodeIdsValue : Option (List String) → Value
  | none => .undef
  | some l => .arr (l.map .str)

/-- `rpcToArgs.get_screenshot`: `(nodeIds, params) => ({ nodeIds, ...params })`.
The spread is applied after the `nodeIds` shorthand, so a `nodeIds` key inside
`params` overrides the wire-level list. -/
def rpcToArgs_get_screenshot (nodeIds : Option (List String))
    (params : Option Params) : Value :=
  let p := params.getD []
  .obj (if (p.lookup "nodeIds").isSome then p else ("nodeIds", nodeIdsValue nodeIds) :: p)

/-- The own keys of `toolInputSchemas` (and of `rpcToArgs`). -/
def registeredTools : List String := ["get_node", "get_design_context", "get_screenshot"]

/-- The standard `Object.prototype` property names. `toolInputSchemas` is a
plain object literal, so the JS `in` operator answers true for these names
through the prototype chain even though they are not registered tools. -/
def objectPrototypeKeys : List String :=
  ["constructor", "hasOwnProperty", "isPrototypeOf", "propertyIsEnumerable",
   "toLocaleString", "toString", "valueOf", "__proto__",
   "__defineGetter__", "__defineSetter__", "__lookupGetter__", "__lookupSetter__"]

/-- The TypeError raised when `validateRpc` indexes an inherited
`Object.prototype` member as if it were a registered schema (either the
reshaper call or `.safeParse` on a non-schema blows up; the exact engine
message text is not modelled, only that a TypeError with some message is
thrown). -/
def protoKeyTypeError (tool : String) : String :=
  "TypeError: toolInputSchemas[" ++ tool ++ "].safeParse is not a function"

/-- `validateRpc(tool, nodeIds?, params?)` from schema.ts. Normal returns are
`.ok`: the tool's schema applied to its reshaped argument for the three
registered tools, and `.ok none` (pass-through) when `tool in toolInputSchemas`
is false. Because `in` consults the prototype chain, an `Object.prototype`
property name passes the guard and the subsequent member access raises a
TypeError, modelled as `.error`. -/
def validateRpc (tool : String) (nodeIds : Option (List String))
    (params : Option Params) : Except String (Option String) :=
  if tool = "get_node" then
    .ok (get_node_schema (rpcToArgs_get_node nodeIds params))
  else if tool = "get_design_context" then
    .ok (get_design_context_schema (rpcToArgs_get_design_context nodeIds params))
  else if tool = "get_screenshot" then
    .ok (get_screenshot_schema (rpcToArgs_get_screenshot nodeIds params))
  else if tool ∈ objectPrototypeKeys then
    .error (protoKeyTypeError tool)
  else
    .ok none

/-- The parsed `/rpc` request body: `{tool, nodeIds?, params?}`. -/
structure RPCRequest where
  tool : String
  nodeIds : Option (List String)
  params : Option Params

/-- Outcome of `JSON.parse(body)` inside the handler's try block: either it
throws (a SyntaxError whose message lands in the catch) or it yields a
request. -/
inductive ParseOutcome where
  | malformed (msg : String)
  | parsed (req : RPCRequest)

/-- The value a settled `bridge.sendWithParams` promise carries:
`{data?, error?}`. `none` is an absent or undefined field. -/
structure BridgeResp where
  data : Option Value
  error : Option String

/-- How the awaited `bridge.sendWithParams(...)` call ends: the promise
resolves with a response object, or rejects (an exception for the catch). -/
inductive BridgeOutcome where
  | resolved (resp : BridgeResp)
  | rejected (msg : String)

/-- Modelled from the spec: `bridge.ts` is not among the source files. Spec
section 3, invariant (d), says an RPCResponse is exactly one of
`{data: value}` or `{error: string}`, and section 7 lists only descriptive
(non-empty) error messages; so a well-formed bridge response carries either a
defined `data` and no `error`, or a non-empty `error` and no `data`. -/
def BridgeResp.wellformed (r : BridgeResp) : Bool :=
  match r.data, r.error with
  | some v, none => !v.isUndef
  | none, some e => e != ""
  | _, _ => false

/-- A rejection is always well-formed (the handler turns it into an `{error}`
body itself); a resolution is well-formed when its response is. -/
def BridgeOutcome.wellformed : BridgeOutcome → Bool
  | .rejected _ => true
  | .resolved r => r.wellformed

/-- The second argument `sendJSON` receives: the object literal
`{error: msg}` or `{data: v}` (where `v` may be absent/undefined, which
`JSON.stringify` then drops). -/
inductive RespBody where
  | err (msg : String)
  | dat (v : Option Value)

/-- The keys `JSON.stringify` keeps in the serialized body: `error` is a
string and always kept; `data` is dropped when undefined. -/
def bodyKeys : RespBody → List String
  | .err _ => ["error"]
  | .dat none => []
  | .dat (some v) => if v.isUndef then [] else ["data"]

/-- Whether a body is RPC-shaped: an `{error: string}` or a `{data: value}`
with a defined value. -/
def RespBody.rpcShaped : RespBody → Bool
  | .err _ => true
  | .dat none => false
  | .dat (some v) => !(Value.isUndef v)

/-- What the handler did with one `/rpc` request: the HTTP status and body
passed to `sendJSON`, and whether `bridge.sendWithParams` was invoked. -/
structure HandlerResult where
  status : Nat
  body : RespBody
  bridgeCalled : Bool

/-- JS truthiness of the `string | null` validation result:
`if (validationError)` is taken for a non-null, non-empty string. -/
def jsTruthyStr : Option String → Bool
  | none => false
  | some s => s != ""

/-- The awaited bridge call and the response dispatch of `handleRPC`:
a rejection lands in the catch (200 `{error}`); a resolution answers 200 with
`{error: resp.error}` when `resp.error` is truthy, else `{data: resp.data}`. -/
def bridgeStep {σ : Type} (send : σ → BridgeOutcome × σ) (s : σ) :
    HandlerResult × σ :=
  match send s with
  | (.rejected msg, s2) => (⟨200, .err msg, true⟩, s2)
  | (.resolved resp, s2) =>
      (⟨200,
        if jsTruthyStr resp.error then .err (resp.error.getD "") else .dat resp.data,
        true⟩, s2)

/-- `Leader.handleRPC` after the body has been buffered, for one request. The
bridge is an oracle `send` over an abstract state `σ`, invoked at most once.
A JSON.parse failure and a thrown validator TypeError land in the catch and
answer 200 `{error}` without touching the bridge; a truthy validation error
answers 400 `{error}` without touching the bridge; otherwise the bridge is
called and its outcome answered with status 200. -/
def handleRPC {σ : Type} (send : σ → BridgeOutcome × σ) (po : ParseOutcome)
    (s : σ) : HandlerResult × σ :=
  match po with
  | .malformed msg => (⟨200, .err msg, false⟩, s)
  | .parsed req =>
      match validateRpc req.tool req.nodeIds req.params with
      | .error msg => (⟨200, .err msg, false⟩, s)
      | .ok verr =>
          if jsTruthyStr verr then (⟨400, .err (verr.getD ""), false⟩, s)
          else bridgeStep send s

/-- What the upgrade handler does with a connection-upgrade request. -/
inductive UpgradeAction where
  | handedToBridge
  | socketDestroyed

/-- The `upgrade` listener in `Leader.start`: the raw request URL is compared
to the exact string `/ws`; a match is handed to `bridge.handleUpgrade`, any
other URL has its socket destroyed. -/
def handleUpgrade (url : String) : UpgradeAction :=
  if url = "/ws" then .handedToBridge else .socketDestroyed

/-- The path component of a request URL: everything before the query string.
Node's `req.url` is the raw request target, so a URL with a query differs
from its path. -/
def urlPath (url : String) : String :=
  String.mk (url.toList.takeWhile fun c => c != '?')

/-- How the single bind attempt of `server.listen` ends: the port is bound,
or the `error` event fires with an error code and message. -/
inductive BindOutcome where
  | bound
  | bindError (code : String) (message : String)

/-- How the promise returned by `Leader.start` settles and whether
`this.server` was assigned: `rejected = some msg` means the promise rejected
with an Error carrying `msg`. -/
structure StartResult where
  rejected : Option String
  serverRecorded : Bool

/-- `Leader.start` as a function of the bind outcome: on success the promise
resolves and the server is recorded; on an `error` event the promise rejects
— with `Port <port> already in use` when the code is EADDRINUSE, else the
original error — and `this.server` is never assigned. The executor registers
the listener with `once` and contains no retry. -/
def leaderStart (port : Nat) : BindOutcome → StartResult
  | .bound => ⟨none, true⟩
  | .bindError code message =>
      ⟨some (if code = "EADDRINUSE"
              then "Port " ++ toString port ++ " already in use"
              else message),
       false⟩

/-! ### Non-emptiness of every validator message -/

lemma ne_empty_of_data {a : String} (h : a.data ≠ []) : a ≠ "" := by
  intro he
  subst he
  exact h rfl

lemma data_append_ne_nil (a b : String) (h : a.data ≠ []) : (a ++ b).data ≠ [] := by
  rw [String.data_append]
  intro hc
  exact h (List.append_eq_nil.mp hc).1

lemma typeErrorMsg_ne_empty (e : String) (v : Value) : typeErrorMsg e v ≠ "" := by
  cases v
  case undef => exact (by decide : ("Required" : String) ≠ "")
  all_goals
    exact ne_empty_of_data
      (data_append_ne_nil _ _ (data_append_ne_nil _ _ (data_append_ne_nil _ _ (by decide))))

lemma parseString_ne_empty {v : Value} {m : String} (h : parseString v = some m) :
    m ≠ "" := by
  cases v
  case str s => simp [parseString] at h
  all_goals
    simp only [parseString, Option.some.injEq] at h
    exact h ▸ typeErrorMsg_ne_empty _ _

lemma parseNumber_ne_empty {v : Value} {m : String} (h : parseNumber v = some m) :
    m ≠ "" := by
  cases v
  case num n => simp [parseNumber] at h
  all_goals
    simp only [parseNumber, Option.some.injEq] at h
    exact h ▸ typeErrorMsg_ne_empty _ _

lemma figmaNodeId_ne_empty {v : Value} {m : String} (h : figmaNodeId v = some m) :
    m ≠ "" := by
  cases v
  case str s =>
    simp only [figmaNodeId] at h
    split at h
    · exact absurd h (by simp)
    · simp only [Option.some.injEq] at h
      subst h
      decide
  all_goals
    simp only [figmaNodeId, Option.some.injEq] at h
    exact h ▸ typeErrorMsg_ne_empty _ _

lemma parseOptional_ne_empty {p : Value → Option String}
    (hp : ∀ v m, p v = some m → m ≠ "") {v : Value} {m : String}
    (h : parseOptional p v = some m) : m ≠ "" := by
  cases v
  case undef => simp [parseOptional] at h
  all_goals
    simp only [parseOptional] at h
    exact hp _ _ h

lemma firstIssue_ne_empty {p : Value → Option String}
    (hp : ∀ v m, p v = some m → m ≠ "") :
    ∀ xs m, firstIssue p xs = some m → m ≠ "" := by
  intro xs
  induction xs with
  | nil => intro m h; simp [firstIssue] at h
  | cons v vs ih =>
      intro m h
      simp only [firstIssue] at h
      cases hv : p v with
      | some m2 =>
          simp only [hv, Option.some.injEq] at h
          exact h ▸ hp v m2 hv
      | none =>
          simp only [hv] at h
          exact ih m h

lemma parseArray_ne_empty {p : Value → Option String}
    (hp : ∀ v m, p v = some m → m ≠ "") {v : Value} {m : String}
    (h : parseArray p v = some m) : m ≠ "" := by
  cases v
  case arr xs =>
    simp only [parseArray] at h
    exact firstIssue_ne_empty hp xs m h
  all_goals
    simp only [parseArray, Option.some.injEq] at h
    exact h ▸ typeErrorMsg_ne_empty _ _

lemma get_node_schema_ne_empty {v : Value} {m : String}
    (h : get_node_schema v = some m) : m ≠ "" := by
  cases v
  case obj fields =>
    simp only [get_node_schema] at h
    exact figmaNodeId_ne_empty h
  all_goals
    simp only [get_node_schema, Option.some.injEq] at h
    exact h ▸ typeErrorMsg_ne_empty _ _

lemma get_design_context_schema_ne_empty {v : Value} {m : String}
    (h : get_design_context_schema v = some m) : m ≠ "" := by
  cases v
  case obj fields =>
    simp only [get_design_context_schema] at h
    exact parseOptional_ne_empty (fun _ _ hv => parseNumber_ne_empty hv) h
  all_goals
    simp only [get_design_context_schema, Option.some.injEq] at h
    exact h ▸ typeErrorMsg_ne_empty _ _

lemma get_screenshot_schema_ne_empty {v : Value} {m : String}
    (h : get_screenshot_schema v = some m) : m ≠ "" := by
  cases v
  case obj fields =>
    simp only [get_screenshot_schema] at h
    split at h
    · simp only [Option.some.injEq] at h
      subst h
      exact parseOptional_ne_empty
        (fun _ _ hv =>
          parseArray_ne_empty (fun _ _ hv2 => figmaNodeId_ne_empty hv2) hv)
        (by assumption)
    · split at h
      · simp only [Option.some.injEq] at h
        subst h
        exact parseOptional_ne_empty (fun _ _ hv => parseString_ne_empty hv)
          (by assumption)
      · exact parseOptional_ne_empty (fun _ _ hv => parseNumber_ne_empty hv) h
  all_goals
    simp only [get_screenshot_schema, Option.some.injEq] at h
    exact h ▸ typeErrorMsg_ne_empty _ _

lemma validateRpc_ok_ne_empty {t : String} {n : Option (List String)}
    {p : Option Params} {m : String}
    (h : validateRpc t n p = Except.ok (some m)) : m ≠ "" := by
  unfold validateRpc at h
  split_ifs at h with h1 h2 h3 h4
  · injection h with h5
    exact get_node_schema_ne_empty h5
  · injection h with h5
    exact get_design_context_schema_ne_empty h5
  · injection h with h5
    exact get_screenshot_schema_ne_empty h5
  all_goals
    first
    | exact Except.noConfusion h
    | (injection h with h5
       exact Option.noConfusion h5)

/-! ### Field-lookup and schema characterization lemmas -/

lemma getField_cons_self (k : String) (v : Value) (fields : List (String × Value)) :
    getField ((k, v) :: fields) k = v := by
  simp [getField, List.lookup]

lemma getField_cons_ne {k k2 : String} (v : Value) (fields : List (String × Value))
    (h : k2 ≠ k) : getField ((k, v) :: fields) k2 = getField fields k2 := by
  have hb : (k2 == k) = false := beq_eq_false_iff_ne.mpr h
  simp [getField, List.lookup, hb]

lemma getField_format (v : Value) (p : Params) :
    getField (("nodeIds", v) :: p) "format" = getField p "format" :=
  getField_cons_ne v p (by decide)

lemma getField_scale (v : Value) (p : Params) :
    getField (("nodeIds", v) :: p) "scale" = getField p "scale" :=
  getField_cons_ne v p (by decide)

lemma firstIssue_nodeIds_none_iff (l : List String) :
    firstIssue figmaNodeId (l.map Value.str) = none ↔ ∀ x ∈ l, matchNodeId x = true := by
  induction l with
  | nil => simp [firstIssue]
  | cons x xs ih =>
      by_cases hx : matchNodeId x = true
      · simp only [List.map_cons, firstIssue, figmaNodeId, hx, if_pos]
        rw [ih]
        constructor
        · intro hall y hy
          rcases List.mem_cons.mp hy with rfl | hmem
          · exact hx
          · exact hall y hmem
        · intro hall y hy
          exact hall y (List.mem_cons_of_mem x hy)
      · have hx2 : matchNodeId x = false := Bool.not_eq_true _ ▸ hx
        simp only [List.map_cons, firstIssue, figmaNodeId, hx2]
        constructor
        · intro hc
          exact absurd hc (by simp)
        · intro hall
          exact absurd (hall x (List.mem_cons_self x xs)) hx

lemma firstIssue_nodeIds_some_of_bad (l : List String) :
    (∃ x ∈ l, matchNodeId x = false) →
    firstIssue figmaNodeId (l.map Value.str) = some colonFormatMsg := by
  induction l with
  | nil => rintro ⟨x, hx, _⟩; cases hx
  | cons y ys ih =>
      rintro ⟨x, hx, hbad⟩
      rcases List.mem_cons.mp hx with rfl | hmem
      · simp [firstIssue, figmaNodeId, hbad]
      · by_cases hy : matchNodeId y = true
        · simpa [firstIssue, figmaNodeId, hy] using ih ⟨x, hmem, hbad⟩
        · have hy2 : matchNodeId y = false := Bool.not_eq_true _ ▸ hy
          simp [firstIssue, figmaNodeId, hy2]

/-- Whether a value passes the optional string field check: absent/undefined
or a string of any content. -/
def strOrAbsent : Value → Bool
  | .undef => true
  | .str _ => true
  | _ => false

/-- Whether a value passes the optional number field check: absent/undefined
or a number of any magnitude. -/
def numOrAbsent : Value → Bool
  | .undef => true
  | .num _ => true
  | _ => false

lemma parseOptional_arr (q : Value → Option String) (xs : List Value) :
    parseOptional q (Value.arr xs) = q (Value.arr xs) := rfl

lemma parseOptional_parseString_none_iff (v : Value) :
    parseOptional parseString v = none ↔ strOrAbsent v = true := by
  cases v <;> simp [parseOptional, parseString, strOrAbsent, typeErrorMsg]

lemma parseOptional_parseNumber_none_iff (v : Value) :
    parseOptional parseNumber v = none ↔ numOrAbsent v = true := by
  cases v <;> simp [parseOptional, parseNumber, numOrAbsent, typeErrorMsg]

/-! ### Bridge-step lemmas -/

lemma bridgeStep_ok {σ : Type} (send : σ → BridgeOutcome × σ) (s : σ)
    (hw : BridgeOutcome.wellformed (send s).1 = true) :
    (bridgeStep send s).1.status = 200 ∧
    (bridgeStep send s).1.body.rpcShaped = true ∧
    (bridgeStep send s).1.bridgeCalled = true := by
  rcases hs : send s with ⟨bo, s2⟩
  rw [hs] at hw
  simp only [bridgeStep, hs]
  cases bo with
  | rejected msg => simp [RespBody.rpcShaped]
  | resolved resp =>
      rcases resp with ⟨d, e⟩
      simp only [BridgeOutcome.wellformed, BridgeResp.wellformed] at hw
      cases d <;> cases e <;>
        simp_all [jsTruthyStr, RespBody.rpcShaped]

lemma bodyKeys_of_shaped {b : RespBody} (h : b.rpcShaped = true) :
    bodyKeys b = ["data"] ∨ bodyKeys b = ["error"] := by
  cases b with
  | err m => right; rfl
  | dat v =>
      cases v with
      | none => simp [RespBody.rpcShaped] at h
      | some v2 =>
          left
          simp only [RespBody.rpcShaped, Bool.not_eq_true'] at h
          simp [bodyKeys, h]

/-! ### Claim theorems -/

/-- C2: for every string matching the `^\d+:\d+$` pattern,
`validate("get_node", [nodeId])` returns none; for every string not matching
it, a non-empty error message — the colon-format message — is returned. -/
theorem validate_get_node_nodeId_format (s : String) :
    (matchNodeId s = true →
      validateRpc "get_node" (some [s]) none = Except.ok none) ∧
    (matchNodeId s = false →
      validateRpc "get_node" (some [s]) none = Except.ok (some colonFormatMsg) ∧
      colonFormatMsg ≠ "") := by
  have hbase : validateRpc "get_node" (some [s]) none =
      Except.ok (figmaNodeId (Value.str s)) := rfl
  constructor
  · intro h
    rw [hbase]
    simp [figmaNodeId, h]
  · intro h
    refine ⟨?_, by decide⟩
    rw [hbase]
    simp [figmaNodeId, h]

theorem validate_get_node_nodeId_format_witness :
    (matchNodeId "4029:12345" = true ∧
      validateRpc "get_node" (some ["4029:12345"]) none = Except.ok none) ∧
    (matchNodeId "4029-12345" = false ∧
      validateRpc "get_node" (some ["4029-12345"]) none =
        Except.ok (some colonFormatMsg)) ∧
    (matchNodeId "abc" = false ∧
      validateRpc "get_node" (some ["abc"]) none = Except.ok (some colonFormatMsg)) :=
  ⟨⟨by decide, (validate_get_node_nodeId_format "4029:12345").1 (by decide)⟩,
   ⟨by decide, ((validate_get_node_nodeId_format "4029-12345").2 (by decide)).1⟩,
   ⟨by decide, ((validate_get_node_nodeId_format "abc").2 (by decide)).1⟩⟩

/-- C3: at the failing input `toString` — a tool name with no registered
schema — `validateRpc` does not return null: the `in` check passes through
the prototype chain and the member access throws a TypeError. -/
theorem validateRpc_prototype_key_throws :
    validateRpc "toString" none none = Except.error (protoKeyTypeError "toString") ∧
    ∀ r : Option String, validateRpc "toString" none none ≠ Except.ok r := by
  refine ⟨rfl, ?_⟩
  intro r h
  exact Except.noConfusion
    (h.symm.trans
      (rfl : validateRpc "toString" none none =
        Except.error (protoKeyTypeError "toString")))

/-- C9: the result of `validateRpc("get_node", nodeIds, params)` depends only
on element 0 of `nodeIds` (under the optional chaining `nodeIds?.[0]`): any
two inputs agreeing there give equal results, whatever `params` and the
further elements are. -/
theorem validate_get_node_first_element_only
    (n1 n2 : Option (List String)) (p1 p2 : Option Params)
    (h : n1.bind List.head? = n2.bind List.head?) :
    validateRpc "get_node" n1 p1 = validateRpc "get_node" n2 p2 := by
  have h2 : firstNodeId n1 = firstNodeId n2 := by
    cases n1 with
    | none =>
        cases n2 with
        | none => rfl
        | some l2 =>
            cases l2 with
            | nil => rfl
            | cons x xs => simp at h
    | some l1 =>
        cases l1 with
        | nil =>
            cases n2 with
            | none => rfl
            | some l2 =>
                cases l2 with
                | nil => rfl
                | cons x xs => simp at h
        | cons x xs =>
            cases n2 with
            | none => simp at h
            | some l2 =>
                cases l2 with
                | nil => simp at h
                | cons y ys =>
                    simp at h
                    simp [firstNodeId, h]
  have e1 : validateRpc "get_node" n1 p1 =
      Except.ok (get_node_schema (Value.obj [("nodeId", firstNodeId n1)])) := rfl
  have e2 : validateRpc "get_node" n2 p2 =
      Except.ok (get_node_schema (Value.obj [("nodeId", firstNodeId n2)])) := rfl
  rw [e1, e2, h2]

theorem validate_get_node_first_element_only_witness :
    ((some ["1:2", "zzz"]).bind List.head? = (some ["1:2"]).bind List.head?) ∧
    validateRpc "get_node" (some ["1:2", "zzz"]) (some [("depth", Value.num 3)]) =
      validateRpc "get_node" (some ["1:2"]) none :=
  ⟨rfl, validate_get_node_first_element_only _ _ _ _ rfl⟩

/-- C10: when `params` carries a `nodeIds` key, the canonical argument for
`get_screenshot` is built from `params` alone (the spread overrides the
shorthand), so the wire-level `nodeIds` argument has no effect on the
validation result. -/
theorem get_screenshot_params_nodeIds_override
    (p : Params) (n1 n2 : Option (List String))
    (hk : (p.lookup "nodeIds").isSome = true) :
    rpcToArgs_get_screenshot n1 (some p) = Value.obj p ∧
    validateRpc "get_screenshot" n1 (some p) =
      validateRpc "get_screenshot" n2 (some p) := by
  have ha : ∀ n, rpcToArgs_get_screenshot n (some p) = Value.obj p := by
    intro n
    simp [rpcToArgs_get_screenshot, hk]
  refine ⟨ha n1, ?_⟩
  have e1 : validateRpc "get_screenshot" n1 (some p) =
      Except.ok (get_screenshot_schema (rpcToArgs_get_screenshot n1 (some p))) := rfl
  have e2 : validateRpc "get_screenshot" n2 (some p) =
      Except.ok (get_screenshot_schema (rpcToArgs_get_screenshot n2 (some p))) := rfl
  rw [e1, e2, ha n1, ha n2]

theorem get_screenshot_params_nodeIds_override_witness :
    ((([("nodeIds", Value.arr [Value.str "1:2"])] : Params).lookup "nodeIds").isSome = true) ∧
    (rpcToArgs_get_screenshot (some ["bad"])
        (some [("nodeIds", Value.arr [Value.str "1:2"])]) =
      Value.obj [("nodeIds", Value.arr [Value.str "1:2"])] ∧
    validateRpc "get_screenshot" (some ["bad"])
        (some [("nodeIds", Value.arr [Value.str "1:2"])]) =
      validateRpc "get_screenshot" none
        (some [("nodeIds", Value.arr [Value.str "1:2"])])) :=
  ⟨rfl, get_screenshot_params_nodeIds_override _ _ _ rfl⟩

/-- C7: when the bind attempt ends with the EADDRINUSE error code, the
promise returned by `start()` rejects with the descriptive message naming the
port, and `this.server` is never recorded; the executor registers a `once`
listener and contains no retry. -/
theorem start_rejects_when_port_in_use (port : Nat) (origMsg : String) :
    leaderStart port (BindOutcome.bindError "EADDRINUSE" origMsg) =
      { rejected := some ("Port " ++ toString port ++ " already in use"),
        serverRecorded := false } := by
  simp [leaderStart]

/-- C8 (amended): an upgrade request is handed to the bridge exactly when its
raw URL is the exact string `/ws`; every other raw URL — including one whose
path is `/ws` but which carries a query string — has its socket destroyed. -/
theorem upgrade_exact_url_routing (url : String) :
    (url = "/ws" → handleUpgrade url = UpgradeAction.handedToBridge) ∧
    (url ≠ "/ws" → handleUpgrade url = UpgradeAction.socketDestroyed) := by
  constructor <;> intro h <;> simp [handleUpgrade, h]

theorem upgrade_exact_url_routing_witness :
    ("/ws" = "/ws" ∧ handleUpgrade "/ws" = UpgradeAction.handedToBridge) ∧
    ("/ping" ≠ "/ws" ∧ handleUpgrade "/ping" = UpgradeAction.socketDestroyed) :=
  ⟨⟨rfl, (upgrade_exact_url_routing "/ws").1 rfl⟩,
   ⟨by decide, (upgrade_exact_url_routing "/ping").2 (by decide)⟩⟩

/-- C8 counterexample: the URL `/ws?token=abc` has path `/ws`, yet the
upgrade handler destroys its socket instead of handing it to the bridge,
because the code compares the whole raw URL with `===`. -/
theorem upgrade_ws_path_query_counterexample :
    urlPath "/ws?token=abc" = "/ws" ∧
    handleUpgrade "/ws?token=abc" = UpgradeAction.socketDestroyed := by
  refine ⟨by decide, rfl⟩

/-- C5 counterexample: the claim as stated fails when `params` carries its
own `nodeIds` key — the wire-level list `["bad"]` contains a non-matching
element, yet validation returns null because the params spread overrides it
with a valid list. -/
theorem get_screenshot_params_override_counterexample :
    matchNodeId "bad" = false ∧
    validateRpc "get_screenshot" (some ["bad"])
      (some [("nodeIds", Value.arr [Value.str "1:2"])]) = Except.ok none :=
  ⟨by decide, rfl⟩

/-- C5 (amended): provided `params` carries no `nodeIds` key of its own,
a present `nodeIds` list with any non-matching element yields a non-empty
error (the colon-format message); and with all elements matching, validation
succeeds exactly when `format` is absent or any string and `scale` is absent
or any number — no constraint beyond the primitive kind. -/
theorem get_screenshot_validation_amended (l : List String) (p : Params)
    (hnp : p.lookup "nodeIds" = none) :
    ((∃ x ∈ l, matchNodeId x = false) →
      validateRpc "get_screenshot" (some l) (some p) =
        Except.ok (some colonFormatMsg) ∧ colonFormatMsg ≠ "") ∧
    ((∀ x ∈ l, matchNodeId x = true) →
      (validateRpc "get_screenshot" (some l) (some p) = Except.ok none ↔
        strOrAbsent (getField p "format") = true ∧
        numOrAbsent (getField p "scale") = true)) := by
  have hbase : validateRpc "get_screenshot" (some l) (some p) =
      Except.ok (get_screenshot_schema (rpcToArgs_get_screenshot (some l) (some p))) :=
    rfl
  have hargs : rpcToArgs_get_screenshot (some l) (some p) =
      Value.obj (("nodeIds", Value.arr (l.map Value.str)) :: p) := by
    simp [rpcToArgs_get_screenshot, hnp, nodeIdsValue]
  have hnode : getField (("nodeIds", Value.arr (l.map Value.str)) :: p) "nodeIds" =
      Value.arr (l.map Value.str) := getField_cons_self _ _ _
  constructor
  · intro hbad
    refine ⟨?_, by decide⟩
    have hfi := firstIssue_nodeIds_some_of_bad l hbad
    rw [hbase, hargs]
    simp [get_screenshot_schema, hnode, parseOptional, parseArray, hfi]
  · intro hall
    have hfi := (firstIssue_nodeIds_none_iff l).mpr hall
    rw [hbase, hargs]
    simp only [get_screenshot_schema, hnode, getField_format, getField_scale,
      parseOptional_arr, parseArray, hfi]
    cases hf : parseOptional parseString (getField p "format") with
    | some m =>
        simp only [hf, Except.ok.injEq]
        constructor
        · intro hc
          exact absurd hc (by simp)
        · rintro ⟨h1, h2⟩
          have hn := (parseOptional_parseString_none_iff _).mpr h1
          rw [hf] at hn
          exact Option.noConfusion hn
    | none =>
        have hs : strOrAbsent (getField p "format") = true :=
          (parseOptional_parseString_none_iff _).mp hf
        simp only [hf, Except.ok.injEq]
        rw [parseOptional_parseNumber_none_iff]
        simp [hs]

theorem get_screenshot_validation_amended_witness :
    (([("format", Value.str "SVG")] : Params).lookup "nodeIds" = none) ∧
    (((∃ x ∈ ["bad"], matchNodeId x = false) →
        validateRpc "get_screenshot" (some ["bad"])
            (some [("format", Value.str "SVG")]) =
          Except.ok (some colonFormatMsg) ∧ colonFormatMsg ≠ "") ∧
     ((∀ x ∈ ["bad"], matchNodeId x = true) →
        (validateRpc "get_screenshot" (some ["bad"])
              (some [("format", Value.str "SVG")]) = Except.ok none ↔
          strOrAbsent (getField [("format", Value.str "SVG")] "format") = true ∧
          numOrAbsent (getField [("format", Value.str "SVG")] "scale") = true))) :=
  ⟨rfl, get_screenshot_validation_amended ["bad"] [("format", Value.str "SVG")] rfl⟩

/-- C6: on a request whose validation returns an error, the handler answers
400 with that error and the bridge oracle is never invoked — the returned
state is the input state unchanged and `bridgeCalled` is false, for every
possible bridge behavior. -/
theorem validation_failure_skips_bridge {σ : Type} (send : σ → BridgeOutcome × σ)
    (req : RPCRequest) (s : σ) (m : String)
    (hv : validateRpc req.tool req.nodeIds req.params = Except.ok (some m)) :
    handleRPC send (ParseOutcome.parsed req) s =
      (⟨400, RespBody.err m, false⟩, s) := by
  have hm : m ≠ "" := validateRpc_ok_ne_empty hv
  have ht : jsTruthyStr (some m) = true := by
    simp [jsTruthyStr, hm]
  simp [handleRPC, hv, ht]

theorem validation_failure_skips_bridge_witness :
    validateRpc "get_node" (some ["bad"]) none = Except.ok (some colonFormatMsg) ∧
    handleRPC (fun u : Unit => (BridgeOutcome.rejected "boom", u))
        (ParseOutcome.parsed ⟨"get_node", some ["bad"], none⟩) () =
      (⟨400, RespBody.err colonFormatMsg, false⟩, ()) :=
  ⟨rfl,
   validation_failure_skips_bridge _ ⟨"get_node", some ["bad"], none⟩ ()
     colonFormatMsg rfl⟩

/-- C1: given a well-formed bridge, the handler's status is 400 exactly when
the parsed request's validation returned an error message (the body then
carries that message under `error`); every other outcome — a JSON.parse
failure, a validator TypeError, a bridge rejection or resolution — answers
200 with an RPC-shaped `{error}` or `{data}` body. -/
theorem rpc_status_400_iff_validation_error {σ : Type}
    (send : σ → BridgeOutcome × σ) (po : ParseOutcome) (s : σ)
    (hw : BridgeOutcome.wellformed (send s).1 = true) :
    ((handleRPC send po s).1.status = 400 ↔
      ∃ req m, po = ParseOutcome.parsed req ∧
        validateRpc req.tool req.nodeIds req.params = Except.ok (some m)) ∧
    (∀ req m, po = ParseOutcome.parsed req →
      validateRpc req.tool req.nodeIds req.params = Except.ok (some m) →
      (handleRPC send po s).1.status = 400 ∧
      (handleRPC send po s).1.body = RespBody.err m) ∧
    ((handleRPC send po s).1.status ≠ 400 →
      (handleRPC send po s).1.status = 200 ∧
      (handleRPC send po s).1.body.rpcShaped = true) := by
  obtain ⟨hst, hsh, -⟩ := bridgeStep_ok send s hw
  cases po with
  | malformed msg =>
      refine ⟨⟨?_, ?_⟩, ?_, ?_⟩
      · intro h
        simp [handleRPC] at h
      · rintro ⟨req, m, hpo, -⟩
        exact ParseOutcome.noConfusion hpo
      · intro req m hpo
        exact absurd hpo (fun h => ParseOutcome.noConfusion h)
      · intro _
        exact ⟨rfl, rfl⟩
  | parsed req =>
      cases hv : validateRpc req.tool req.nodeIds req.params with
      | error msg =>
          have hr : handleRPC send (ParseOutcome.parsed req) s =
              (⟨200, RespBody.err msg, false⟩, s) := by
            simp [handleRPC, hv]
          rw [hr]
          refine ⟨⟨?_, ?_⟩, ?_, ?_⟩
          · intro h
            simp at h
          · rintro ⟨req2, m, hpo, hv2⟩
            injection hpo with hreq
            subst hreq
            rw [hv] at hv2
            exact Except.noConfusion hv2
          · intro req2 m hpo hv2
            injection hpo with hreq
            subst hreq
            rw [hv] at hv2
            exact Except.noConfusion hv2
          · intro _
            exact ⟨rfl, rfl⟩
      | ok verr =>
          cases verr with
          | some m =>
              have hm : m ≠ "" := validateRpc_ok_ne_empty hv
              have ht : jsTruthyStr (some m) = true := by
                simp [jsTruthyStr, hm]
              have hr : handleRPC send (ParseOutcome.parsed req) s =
                  (⟨400, RespBody.err m, false⟩, s) := by
                simp [handleRPC, hv, ht]
              rw [hr]
              refine ⟨⟨?_, ?_⟩, ?_, ?_⟩
              · intro _
                exact ⟨req, m, rfl, hv⟩
              · intro _
                rfl
              · intro req2 m2 hpo hv2
                injection hpo with hreq
                subst hreq
                rw [hv] at hv2
                injection hv2 with h3
                injection h3 with h4
                exact ⟨rfl, by rw [h4]⟩
              · intro h
                exact absurd rfl h
          | none =>
              have hr : handleRPC send (ParseOutcome.parsed req) s =
                  bridgeStep send s := by
                simp [handleRPC, hv, jsTruthyStr]
              rw [hr]
              refine ⟨⟨?_, ?_⟩, ?_, ?_⟩
              · intro h
                rw [hst] at h
                exact absurd h (by decide)
              · rintro ⟨req2, m, hpo, hv2⟩
                injection hpo with hreq
                subst hreq
                rw [hv] at hv2
                injection hv2 with h3
                exact Option.noConfusion h3
              · intro req2 m hpo hv2
                injection hpo with hreq
                subst hreq
                rw [hv] at hv2
                injection hv2 with h3
                exact Option.noConfusion h3
              · intro _
                exact ⟨hst, hsh⟩

theorem rpc_status_400_iff_validation_error_witness :
    BridgeOutcome.wellformed
        ((fun u : Unit => (BridgeOutcome.rejected "boom", u)) ()).1 = true ∧
    (((handleRPC (fun u : Unit => (BridgeOutcome.rejected "boom", u))
          (ParseOutcome.parsed ⟨"get_node", some ["bad"], none⟩) ()).1.status = 400 ↔
        ∃ req m, ParseOutcome.parsed (⟨"get_node", some ["bad"], none⟩ : RPCRequest) =
            ParseOutcome.parsed req ∧
          validateRpc req.tool req.nodeIds req.params = Except.ok (some m)) ∧
     (∀ req m, ParseOutcome.parsed (⟨"get_node", some ["bad"], none⟩ : RPCRequest) =
          ParseOutcome.parsed req →
        validateRpc req.tool req.nodeIds req.params = Except.ok (some m) →
        (handleRPC (fun u : Unit => (BridgeOutcome.rejected "boom", u))
            (ParseOutcome.parsed ⟨"get_node", some ["bad"], none⟩) ()).1.status = 400 ∧
        (handleRPC (fun u : Unit => (BridgeOutcome.rejected "boom", u))
            (ParseOutcome.parsed ⟨"get_node", some ["bad"], none⟩) ()).1.body =
          RespBody.err m) ∧
     ((handleRPC (fun u : Unit => (BridgeOutcome.rejected "boom", u))
          (ParseOutcome.parsed ⟨"get_node", some ["bad"], none⟩) ()).1.status ≠ 400 →
        (handleRPC (fun u : Unit => (BridgeOutcome.rejected "boom", u))
            (ParseOutcome.parsed ⟨"get_node", some ["bad"], none⟩) ()).1.status = 200 ∧
        (handleRPC (fun u : Unit => (BridgeOutcome.rejected "boom", u))
            (ParseOutcome.parsed ⟨"get_node", some ["bad"], none⟩) ()).1.body.rpcShaped =
          true)) :=
  ⟨rfl, rpc_status_400_iff_validation_error _ _ () rfl⟩

/-- C4: given a well-formed bridge, every serialized `/rpc` response body
carries exactly one of the keys `data` and `error` — never both and never
neither. -/
theorem rpc_response_single_key {σ : Type} (send : σ → BridgeOutcome × σ)
    (po : ParseOutcome) (s : σ)
    (hw : BridgeOutcome.wellformed (send s).1 = true) :
    bodyKeys (handleRPC send po s).1.body = ["data"] ∨
    bodyKeys (handleRPC send po s).1.body = ["error"] := by
  obtain ⟨-, hsh, -⟩ := bridgeStep_ok send s hw
  cases po with
  | malformed msg => right; rfl
  | parsed req =>
      cases hv : validateRpc req.tool req.nodeIds req.params with
      | error msg =>
          right
          simp [handleRPC, hv, bodyKeys]
      | ok verr =>
          by_cases ht : jsTruthyStr verr = true
          · right
            simp [handleRPC, hv, ht, bodyKeys]
          · have ht2 : jsTruthyStr verr = false := by
              cases h2 : jsTruthyStr verr
              · rfl
              · exact absurd h2 ht
            have hr : handleRPC send (ParseOutcome.parsed req) s =
                bridgeStep send s := by
              simp [handleRPC, hv, ht2]
            rw [hr]
            exact bodyKeys_of_shaped hsh

theorem rpc_response_single_key_witness :
    BridgeOutcome.wellformed
        ((fun u : Unit =>
          (BridgeOutcome.resolved ⟨some (Value.str "x"), none⟩, u)) ()).1 = true ∧
    (bodyKeys (handleRPC
        (fun u : Unit => (BridgeOutcome.resolved ⟨some (Value.str "x"), none⟩, u))
        (ParseOutcome.parsed ⟨"get_node", some ["1:2"], none⟩) ()).1.body = ["data"] ∨
     bodyKeys (handleRPC
        (fun u : Unit => (BridgeOutcome.resolved ⟨some (Value.str "x"), none⟩, u))
        (ParseOutcome.parsed ⟨"get_node", some ["1:2"], none⟩) ()).1.body = ["error"]) :=
  ⟨rfl, rpc_response_single_key _ _ () rfl⟩
